import Mathlib

/-!
Shallow embedding of the todo-reminder service core
(repository `asqirahmadani/coding-interview-backend`).

Embedded components:
* the final `InMemoryTodoRepository` (the variant with soft delete and
  pagination, the one implementing the `ITodoRepository` interface that
  `TodoService` and the routes are written against);
* `TodoService` (`src/src/core/TodoService.ts`), with the service methods
  that the routes call but that are missing from the sources under `src/`
  (`shareTodo`, `unshareTodo`, paginated `getTodosByUser`) modelled from
  the specification;
* a small reference-semantics model of the repository used to reason about
  aliasing of values returned by read operations.

Modelling conventions:
* `Date` values are modelled as natural-number timestamps; every call of
  `new Date()` inside one operation is modelled as the single clock value
  `now` passed to that operation;
* `Math.floor(Math.random() * 1000000)` is modelled as an explicit
  parameter `rand : Nat` (the value the generator returned);
* JavaScript truthiness on `Date | undefined` fields (`t.remindAt && ...`,
  `!t.deletedAt`) is `Option.isSome` / `Option.isNone`, since every `Date`
  object is truthy;
* the in-memory array `this.todos` is a `List Todo`; each operation takes
  the current list and returns its result together with the new list.
-/

deriving instance DecidableEq for Except

/-- Executable model of JavaScript `String.prototype.trim()`: drops
leading and trailing whitespace (structurally recursive so that concrete
calls evaluate inside the kernel). -/
def jsTrim (s : String) : String :=
  String.mk ((((s.data.dropWhile Char.isWhitespace).reverse).dropWhile
    Char.isWhitespace).reverse)

/-- Status enum of a todo: `"PENDING" | "DONE" | "REMINDER_DUE"`. -/
inductive TodoStatus where
  | PENDING
  | DONE
  | REMINDER_DUE
deriving DecidableEq, Repr

/-- The `Todo` record of `src/domain/Todo`: id, owner (`userId`), title,
optional description, status, optional reminder time, list of user ids the
todo is shared with, creation/update timestamps and the optional
soft-delete tombstone timestamp. -/
structure Todo where
  id : String
  userId : String
  title : String
  description : Option String
  status : TodoStatus
  remindAt : Option Nat
  sharedWith : List String
  createdAt : Nat
  updatedAt : Nat
  deletedAt : Option Nat
deriving DecidableEq, Repr

/-- Argument of `ITodoRepository.create`: `Omit<Todo, "id" | "createdAt" |
"updatedAt">` as actually passed by `TodoService.createTodo` (which supplies
`userId`, `title`, `description`, `status` and `remindAt`; `sharedWith` is
overridden to `[]` by `create` itself and `deletedAt` is never passed). -/
structure CreateData where
  userId : String
  title : String
  description : Option String
  status : TodoStatus
  remindAt : Option Nat
deriving DecidableEq, Repr

/-- Argument of `ITodoRepository.update`: `Partial<Omit<Todo, "id" |
"userId" | "createdAt">>`. A field that is `none` is absent from the
partial object and left unchanged by the object spread; a `some` field
overwrites the stored value. -/
structure TodoUpdates where
  title : Option String := none
  description : Option String := none
  status : Option TodoStatus := none
  remindAt : Option Nat := none
  sharedWith : Option (List String) := none
  updatedAt : Option Nat := none
  deletedAt : Option Nat := none
deriving DecidableEq, Repr

/-- Spread semantics for an optional `Todo` field: a field present in the
partial object (`some v`) overwrites the stored optional field with
`some v`; an absent field (`none`) leaves the stored value. -/
def mergeOpt (upd : Option α) (old : Option α) : Option α :=
  match upd with
  | some v => some v
  | none => old

/-- Effect of `{ ...this.todos[index], ...updates, updatedAt: new Date() }`:
every field present in `updates` overwrites the stored field, and
`updatedAt` is then forced to the current time, discarding any
`updates.updatedAt` value. -/
def applyUpdates (t : Todo) (u : TodoUpdates) (now : Nat) : Todo :=
  { t with
    title := u.title.getD t.title
    description := mergeOpt u.description t.description
    status := u.status.getD t.status
    remindAt := mergeOpt u.remindAt t.remindAt
    sharedWith := u.sharedWith.getD t.sharedWith
    deletedAt := mergeOpt u.deletedAt t.deletedAt
    updatedAt := now }

/-- Replacement of the first record whose `id` matches, returning the new
record and the new list. This is the `findIndex` / assign-at-index pattern
used by both `update` and `delete` in `InMemoryTodoRepository`:
`findIndex` returns the index of the first match, the element at that index
is replaced, and the replaced element is returned (`none` if `findIndex`
returned `-1`). -/
def replaceFirst (f : Todo → Todo) (id : String) : List Todo → Option Todo × List Todo
  | [] => (none, [])
  | t :: ts =>
    if t.id = id then
      (some (f t), f t :: ts)
    else
      let r := replaceFirst f id ts
      (r.1, t :: r.2)

/-- Due-reminder predicate of `findDueReminders`:
`t.remindAt && t.status === "PENDING" && t.remindAt <= currentTime`. -/
def isDue (t : Todo) (now : Nat) : Bool :=
  match t.remindAt with
  | some r => t.status = TodoStatus.PENDING ∧ r ≤ now
  | none => false

/-- JavaScript `Array.prototype.slice(start, stop)` for the in-range
natural indices produced by the pagination arithmetic. -/
def jsSlice (l : List Todo) (start stop : Nat) : List Todo :=
  (l.drop start).take (stop - start)

namespace InMemoryTodoRepository

/-- Method `create` of the final `InMemoryTodoRepository`: builds the id
`todo-` followed by the random draw, stamps `createdAt = updatedAt = now`,
forces `sharedWith` to `[]` (the spread is overridden), leaves `deletedAt`
absent, and pushes the record onto the array. -/
def create (s : List Todo) (todoData : CreateData) (rand now : Nat) :
    Todo × List Todo :=
  let todo : Todo :=
    { id := "todo-" ++ toString rand
      userId := todoData.userId
      title := todoData.title
      description := todoData.description
      status := todoData.status
      remindAt := todoData.remindAt
      sharedWith := []
      createdAt := now
      updatedAt := now
      deletedAt := none }
  (todo, s ++ [todo])

/-- Method `update`: `findIndex` on `id` over all records (soft-deleted
ones included), `null` when absent; otherwise the record is replaced by
the spread merge with `updatedAt` forced to `now`, and the new record is
returned. -/
def update (s : List Todo) (id : String) (updates : TodoUpdates) (now : Nat) :
    Option Todo × List Todo :=
  replaceFirst (fun t => applyUpdates t updates now) id s

/-- Method `findById`: first record with the given id whose `deletedAt` is
unset; the stored object itself is returned, modelled here by its value
(the aliasing consequences are treated in the reference model below). -/
def findById (s : List Todo) (id : String) : Option Todo :=
  s.find? (fun t => t.id = id && t.deletedAt.isNone)

/-- Method `findByUserId` (final version): clamps `page` to at least 1 and
`limit` to `[1, 100]`, filters the non-deleted records owned by or shared
with the user (each shallow-copied by `{ ...t }`, the identity on values),
and slices the window `[skip, skip + validLimit)`. -/
def findByUserId (s : List Todo) (userId : String) (page limit : Int) :
    List Todo :=
  let valiPage := max 1 page
  let validLimit := min (max 1 limit) 100
  let skip := (valiPage - 1) * validLimit
  let userTodos := s.filter
    (fun t => t.deletedAt.isNone && (t.userId = userId || t.sharedWith.contains userId))
  jsSlice userTodos skip.toNat (skip + validLimit).toNat

/-- Method `delete` (final version, soft delete): `findIndex` on `id` over
all records (with no `deletedAt` check), `null` when absent; otherwise only
`deletedAt` is set to `now` and the tombstoned record is returned. -/
def delete (s : List Todo) (id : String) (now : Nat) :
    Option Todo × List Todo :=
  replaceFirst (fun t => { t with deletedAt := some now }) id s

/-- Method `shareTodo`: `findById`, `null` when absent; current copy when
the target is already in `sharedWith`; otherwise `update` with `sharedWith`
extended by the target. -/
def shareTodo (s : List Todo) (todoId targetUserId : String) (now : Nat) :
    Option Todo × List Todo :=
  match findById s todoId with
  | none => (none, s)
  | some todo =>
    if todo.sharedWith.contains targetUserId then
      (some todo, s)
    else
      update s todoId { sharedWith := some (todo.sharedWith ++ [targetUserId]) } now

/-- Method `unshareTodo`: `findById`, `null` when absent; current copy when
`sharedWith` is empty; otherwise `update` with the target filtered out. -/
def unshareTodo (s : List Todo) (todoId targetUserId : String) (now : Nat) :
    Option Todo × List Todo :=
  match findById s todoId with
  | none => (none, s)
  | some todo =>
    if todo.sharedWith.isEmpty then
      (some todo, s)
    else
      update s todoId
        { sharedWith := some (todo.sharedWith.filter (fun id => id ≠ targetUserId)) } now

/-- Method `findDueReminders`: filters the whole array by
`t.remindAt && t.status === "PENDING" && t.remindAt <= currentTime`;
note that the filter has no `deletedAt` condition. -/
def findDueReminders (s : List Todo) (currentTime : Nat) : List Todo :=
  s.filter (fun t => isDue t currentTime)

end InMemoryTodoRepository

/-- Typed failure of a service operation; the routing layer maps
`notFound` to 404, `validation` to 400 and `internal` to 500 by inspecting
the message of the thrown `Error`. -/
inductive ServiceError where
  | notFound (msg : String)
  | validation (msg : String)
  | internal (msg : String)
deriving DecidableEq, Repr

/-- Update payload accepted by `TodoService.updateTodo`: only `title`,
`description`, `status` and `remindAt` can be supplied; owner id and
creation timestamp are not part of the payload. The `remindAt` value is
the already-parsed timestamp (the service parses a string argument with
`new Date`; parsing is outside this embedding). -/
structure UpdateData where
  title : Option String := none
  description : Option String := none
  status : Option TodoStatus := none
  remindAt : Option Nat := none
deriving DecidableEq, Repr

namespace TodoService

open InMemoryTodoRepository

/-- Method `createTodo`: rejects an empty or whitespace-only title,
rejects an owner id that the user repository does not resolve (the user
repository is modelled by the list `users` of existing user ids), then
delegates to the repository `create` with status `PENDING`. The `remindAt`
argument is the already-parsed timestamp. -/
def createTodo (users : List String) (s : List Todo)
    (userId title : String) (description : Option String)
    (remindAt : Option Nat) (rand now : Nat) :
    Except ServiceError Todo × List Todo :=
  if jsTrim title = "" then
    (Except.error (ServiceError.validation "Todo title cannot be empty"), s)
  else if users.contains userId then
    let r := create s
      { userId := userId, title := title, description := description,
        status := TodoStatus.PENDING, remindAt := remindAt } rand now
    (Except.ok r.1, r.2)
  else
    (Except.error (ServiceError.notFound
      ("User with id " ++ userId ++ " not found!")), s)

/-- Method `getTodoById`: plain delegation to the repository. -/
def getTodoById (s : List Todo) (todoId : String) : Option Todo :=
  findById s todoId

/-- Modelled from the spec: the paginated `getTodosByUser(userId, page,
limit)` that the routes call is missing from the `TodoService` under
`src/` (the version there takes no pagination arguments); per the spec it
delegates to the store, which clamps `page` and `limit`. -/
def getTodosByUser (s : List Todo) (userId : String) (page limit : Int) :
    List Todo :=
  findByUserId s userId page limit

/-- Method `updateTodo`: not-found when `findById` misses, validation
error when a title is supplied but trims to empty; otherwise the provided
fields are copied into the partial update (never `sharedWith`, never
timestamps) and delegated to the repository `update`. -/
def updateTodo (s : List Todo) (todoId : String) (data : UpdateData)
    (now : Nat) : Except ServiceError Todo × List Todo :=
  match findById s todoId with
  | none =>
    (Except.error (ServiceError.notFound
      ("Todo with id " ++ todoId ++ " not found!")), s)
  | some _ =>
    if data.title.any (fun tt => jsTrim tt = "") then
      (Except.error (ServiceError.validation "Todo title cannot be empty"), s)
    else
      let u : TodoUpdates :=
        { title := data.title, description := data.description,
          status := data.status, remindAt := data.remindAt }
      match update s todoId u now with
      | (some t, s') => (Except.ok t, s')
      | (none, s') =>
        (Except.error (ServiceError.internal
          ("Failed to update todo " ++ todoId)), s')

/-- Method `completeTodo`: not-found when `findById` misses; when the todo
is already `DONE` the current record is returned with no write at all;
otherwise the repository `update` is called with status `DONE` and an
explicit `updatedAt` (which the repository discards in favour of its own
clock). -/
def completeTodo (s : List Todo) (todoId : String) (now : Nat) :
    Except ServiceError Todo × List Todo :=
  match findById s todoId with
  | none =>
    (Except.error (ServiceError.notFound
      ("Todo with id " ++ todoId ++ " not found!")), s)
  | some todo =>
    if todo.status = TodoStatus.DONE then
      (Except.ok todo, s)
    else
      match update s todoId
          { status := some TodoStatus.DONE, updatedAt := some now } now with
      | (some t, s') => (Except.ok t, s')
      | (none, s') =>
        (Except.error (ServiceError.internal
          ("Failed to update todo " ++ todoId)), s')

/-- Method `deleteTodo`: not-found when `findById` misses; otherwise the
repository `delete` is called and nothing is returned. -/
def deleteTodo (s : List Todo) (todoId : String) (now : Nat) :
    Except ServiceError Unit × List Todo :=
  match findById s todoId with
  | none =>
    (Except.error (ServiceError.notFound
      ("Todo with id " ++ todoId ++ " not found")), s)
  | some _ =>
    (Except.ok (), (InMemoryTodoRepository.delete s todoId now).2)

/-- Modelled from the spec: the service `shareTodo` that the route
`POST /todos/:id/share` calls is missing from the `TodoService` under
`src/`. Per the spec it fails with `NotFoundError` when the todo is absent
or the target user does not resolve, fails with `ValidationError` when the
target equals the owner, and otherwise delegates to the repository
`shareTodo` (an idempotent add). -/
def shareTodo (users : List String) (s : List Todo)
    (todoId targetUserId : String) (now : Nat) :
    Except ServiceError Todo × List Todo :=
  match findById s todoId with
  | none =>
    (Except.error (ServiceError.notFound
      ("Todo with id " ++ todoId ++ " not found!")), s)
  | some todo =>
    if users.contains targetUserId then
      if targetUserId = todo.userId then
        (Except.error (ServiceError.validation
          "Cannot share a todo with yourself"), s)
      else
        match InMemoryTodoRepository.shareTodo s todoId targetUserId now with
        | (some t, s') => (Except.ok t, s')
        | (none, s') =>
          (Except.error (ServiceError.internal "Failed to share todo"), s')
    else
      (Except.error (ServiceError.notFound
        ("User with id " ++ targetUserId ++ " not found!")), s)

/-- Modelled from the spec: the service `unshareTodo` that the route
`DELETE /todos/:id/share/:userId` calls is missing from the `TodoService`
under `src/`. Per the spec it fails with `NotFoundError` when the todo is
absent and otherwise performs an idempotent removal via the repository. -/
def unshareTodo (s : List Todo) (todoId targetUserId : String) (now : Nat) :
    Except ServiceError Todo × List Todo :=
  match findById s todoId with
  | none =>
    (Except.error (ServiceError.notFound
      ("Todo with id " ++ todoId ++ " not found!")), s)
  | some _ =>
    match InMemoryTodoRepository.unshareTodo s todoId targetUserId now with
    | (some t, s') => (Except.ok t, s')
    | (none, s') =>
      (Except.error (ServiceError.internal "Failed to unshare todo"), s')

/-- Loop body of `processReminders`: for each due todo, the repository
`update` flips its status to `REMINDER_DUE`, and the counter is
incremented (the repository `update` signals a missing id by `null` and
never throws, so the `catch` branch is dead and `processed` counts every
iteration). -/
def processLoop (s : List Todo) (due : List Todo) (now : Nat) :
    Nat × List Todo :=
  match due with
  | [] => (0, s)
  | t :: rest =>
    let s1 := (InMemoryTodoRepository.update s t.id
      { status := some TodoStatus.REMINDER_DUE, updatedAt := some now } now).2
    let r := processLoop s1 rest now
    (r.1 + 1, r.2)

/-- Method `processReminders`: fetches the due reminders at the current
time and flips each of them to `REMINDER_DUE`, returning the number of
processed records and the new store. -/
def processReminders (s : List Todo) (now : Nat) : Nat × List Todo :=
  processLoop s (findDueReminders s now) now

end TodoService

/-- Service operation together with the environment values it consumes:
clock readings (`now`), and for `createTodo` the value of the random id
draw (`rand`). -/
inductive Op where
  | createTodo (userId title : String) (description : Option String)
      (remindAt : Option Nat) (rand now : Nat)
  | updateTodo (todoId : String) (data : UpdateData) (now : Nat)
  | completeTodo (todoId : String) (now : Nat)
  | deleteTodo (todoId : String) (now : Nat)
  | shareTodo (todoId targetUserId : String) (now : Nat)
  | unshareTodo (todoId targetUserId : String) (now : Nat)
  | processReminders (now : Nat)
deriving DecidableEq, Repr

/-- Store state after one service operation (the result value is
discarded; a rejected operation leaves the store unchanged). -/
def step (users : List String) (s : List Todo) : Op → List Todo
  | Op.createTodo uid title d r rand now =>
    (TodoService.createTodo users s uid title d r rand now).2
  | Op.updateTodo id d now => (TodoService.updateTodo s id d now).2
  | Op.completeTodo id now => (TodoService.completeTodo s id now).2
  | Op.deleteTodo id now => (TodoService.deleteTodo s id now).2
  | Op.shareTodo id u now => (TodoService.shareTodo users s id u now).2
  | Op.unshareTodo id u now => (TodoService.unshareTodo s id u now).2
  | Op.processReminders now => (TodoService.processReminders s now).2

/-- Freshness of the random id draw of a `createTodo` operation relative
to the current store: the generated id differs from every stored id. The
code only makes this probable, not certain (`Math.random` over a pool of
one million ids). -/
def freshOp (s : List Todo) : Op → Bool
  | Op.createTodo _ _ _ _ rand _ =>
    s.all (fun t => t.id ≠ "todo-" ++ toString rand)
  | _ => true

/-- Operation that does not carry an explicit `status` field, i.e. every
operation except an `updateTodo` whose payload supplies `status`. -/
def statusFree : Op → Bool
  | Op.updateTodo _ d _ => d.status.isNone
  | _ => true

/-- Execution of a sequence of service operations in which every
`createTodo` happens to draw an id not already in the store. -/
inductive Steps (users : List String) :
    List Todo → List Op → List Todo → Prop where
  | nil (s : List Todo) : Steps users s [] s
  | cons (s : List Todo) (op : Op) (ops : List Op) (s' : List Todo)
      (hf : freshOp s op = true)
      (h : Steps users (step users s op) ops s') :
      Steps users s (op :: ops) s'

/-- First stored record with the given id, soft-deleted or not; under
distinct ids this is the record with that id. -/
def lookupById (s : List Todo) (id : String) : Option Todo :=
  s.find? (fun t => t.id = id)

/-- Store whose record ids are pairwise distinct. -/
def idsNodup (s : List Todo) : Prop :=
  (s.map (fun t => t.id)).Nodup

namespace RefModel

/-!
Reference-semantics model of the repository reads, needed to reason about
what happens when a caller mutates a returned object. The JavaScript
objects live in a heap (`heap`, addressed by index); the private array
`this.todos` holds references into that heap. `findById` executes
`this.todos.find((t) => t.id === id && !t.deletedAt); return todo || null;`
which returns the stored object itself, i.e. the reference, not a copy.
-/

/-- Repository state with explicit references: `heap` is the object
store and `todos` is the internal array of references. -/
structure RepoState where
  heap : List Todo
  todos : List Nat
deriving DecidableEq, Repr

/-- Value of a reference. -/
def deref (st : RepoState) (r : Nat) : Option Todo :=
  st.heap.get? r

/-- `findById` in the reference model: returns the reference held in the
internal array (the object itself), not a copy. -/
def findByIdRef (st : RepoState) (id : String) : Option Nat :=
  st.todos.find? (fun r =>
    match st.heap.get? r with
    | some t => t.id = id && t.deletedAt.isNone
    | none => false)

/-- Caller-side mutation of a returned object: assigning to the `title`
property of the object behind reference `r` writes through to the heap. -/
def setTitle (st : RepoState) (r : Nat) (newTitle : String) : RepoState :=
  { st with
    heap :=
      match st.heap.get? r with
      | some t => st.heap.set r { t with title := newTitle }
      | none => st.heap }

/-- Value a caller observes from a subsequent `findById` of the same id. -/
def readById (st : RepoState) (id : String) : Option Todo :=
  (findByIdRef st id).bind (deref st)

end RefModel

/-- Non-deleted todos whose owner is the user or whose `sharedWith`
contains the user, in store order — the filtered set the claim about
pagination speaks of. -/
def ownerOrShareeTodos (s : List Todo) (userId : String) : List Todo :=
  s.filter
    (fun t => t.deletedAt.isNone && (t.userId = userId || t.sharedWith.contains userId))

/-- Modelled from the spec (refinement reference): the page-th window of
size `limit` of a sequence, with `page` floored to at least 1 and `limit`
clamped to between 1 and 100, as the pagination claim words it. -/
def pageWindowSpec (xs : List Todo) (page limit : Int) : List Todo :=
  let p := max 1 page
  let l := min (max 1 limit) 100
  (xs.drop ((p - 1) * l).toNat).take l.toNat

/-! Helper lemmas about `replaceFirst` and lookups. -/

theorem replaceFirst_fst (f : Todo → Todo) (id : String) (s : List Todo) :
    (replaceFirst f id s).1 = (s.find? (fun t => t.id = id)).map f := by
  induction s with
  | nil => rfl
  | cons t ts ih =>
    by_cases h : t.id = id
    · simp [replaceFirst, h]
    · simp [replaceFirst, h, ih]

theorem replaceFirst_length (f : Todo → Todo) (id : String) (s : List Todo) :
    ((replaceFirst f id s).2).length = s.length := by
  induction s with
  | nil => rfl
  | cons t ts ih =>
    by_cases h : t.id = id
    · simp [replaceFirst, h]
    · simp [replaceFirst, h, ih]

theorem replaceFirst_not_found (f : Todo → Todo) (id : String) (s : List Todo)
    (h : ∀ t ∈ s, t.id ≠ id) : replaceFirst f id s = (none, s) := by
  induction s with
  | nil => rfl
  | cons t ts ih =>
    have ht : t.id ≠ id := h t (List.mem_cons_self t ts)
    have hts : ∀ t' ∈ ts, t'.id ≠ id := fun t' ht' => h t' (List.mem_cons_of_mem t ht')
    simp [replaceFirst, ht, ih hts]

theorem replaceFirst_mem (f : Todo → Todo) (id : String) (s : List Todo)
    (t0 : Todo) (h : s.find? (fun t => t.id = id) = some t0) :
    f t0 ∈ (replaceFirst f id s).2 := by
  induction s with
  | nil => simp at h
  | cons t ts ih =>
    by_cases hh : t.id = id
    · rw [List.find?_cons_of_pos _ (by simpa using hh)] at h
      cases h
      simp [replaceFirst, hh]
    · rw [List.find?_cons_of_neg _ (by simpa using hh)] at h
      simp only [replaceFirst, if_neg hh]
      exact List.mem_cons_of_mem t (ih h)

theorem replaceFirst_snd_eq_map (f : Todo → Todo) (id : String) (s : List Todo)
    (h : idsNodup s) :
    (replaceFirst f id s).2 = s.map (fun t => if t.id = id then f t else t) := by
  induction s with
  | nil => rfl
  | cons t ts ih =>
    have h' : (ts.map (fun t => t.id)).Nodup ∧ t.id ∉ ts.map (fun t => t.id) := by
      have := h
      simp only [idsNodup, List.map_cons, List.nodup_cons] at this
      exact ⟨this.2, this.1⟩
    by_cases hh : t.id = id
    · have : ts.map (fun t' => if t'.id = id then f t' else t') = ts := by
        have hne : ∀ t' ∈ ts, t'.id ≠ id := by
          intro t' ht' heq
          exact h'.2 (by simpa [heq, hh] using List.mem_map_of_mem (fun t => t.id) ht')
        calc ts.map (fun t' => if t'.id = id then f t' else t')
            = ts.map (fun t' => t') := List.map_congr_left (by
              intro a ha; simp [hne a ha])
          _ = ts := List.map_id ts
      simp [replaceFirst, hh, this]
    · simp [replaceFirst, hh, ih h'.1]

theorem replaceFirst_ids (f : Todo → Todo) (id : String) (s : List Todo)
    (hf : ∀ t, (f t).id = t.id) :
    ((replaceFirst f id s).2).map (fun t => t.id) = s.map (fun t => t.id) := by
  induction s with
  | nil => rfl
  | cons t ts ih =>
    by_cases h : t.id = id
    · simp [replaceFirst, h, hf]
    · simp [replaceFirst, h, ih]

theorem find?_map_of_pred (f : Todo → Todo) (p : Todo → Bool) (s : List Todo)
    (h : ∀ t, p (f t) = p t) :
    (s.map f).find? p = (s.find? p).map f := by
  induction s with
  | nil => rfl
  | cons t ts ih =>
    by_cases hp : p t = true
    · rw [List.map_cons, List.find?_cons_of_pos _ (by simp [h, hp]),
        List.find?_cons_of_pos _ hp, Option.map_some']
    · rw [List.map_cons, List.find?_cons_of_neg _ (by simp [h, hp]),
        List.find?_cons_of_neg _ (by simp [hp]), ih]

theorem eq_of_mem_of_id_eq {s : List Todo} {t1 t2 : Todo} (h : idsNodup s)
    (h1 : t1 ∈ s) (h2 : t2 ∈ s) (hid : t1.id = t2.id) : t1 = t2 :=
  List.inj_on_of_nodup_map h h1 h2 hid

/-! Characterization of a reminder sweep. -/

/-- Effect of one sweep on a single record: a due record gets status
`REMINDER_DUE` and a fresh `updatedAt`; any other record is untouched. -/
def dueFlip (now : Nat) (t : Todo) : Todo :=
  if isDue t now then
    { t with status := TodoStatus.REMINDER_DUE, updatedAt := now }
  else t

/-- Store after one sweep at time `now`. -/
def markDue (s : List Todo) (now : Nat) : List Todo :=
  s.map (dueFlip now)

theorem processLoop_spec (now : Nat) (ds : List Todo) (s : List Todo)
    (h : idsNodup s) :
    (TodoService.processLoop s ds now).1 = ds.length ∧
    (TodoService.processLoop s ds now).2 =
      s.map (fun t =>
        if t.id ∈ ds.map (fun d => d.id)
        then { t with status := TodoStatus.REMINDER_DUE, updatedAt := now }
        else t) := by
  induction ds generalizing s with
  | nil =>
    refine ⟨rfl, ?_⟩
    simp [TodoService.processLoop]
  | cons d rest ih =>
    have hid : ∀ t : Todo,
        (applyUpdates t
          { status := some TodoStatus.REMINDER_DUE, updatedAt := some now } now).id
          = t.id := fun t => rfl
    have hmap := replaceFirst_snd_eq_map
      (fun t => applyUpdates t
        { status := some TodoStatus.REMINDER_DUE, updatedAt := some now } now)
      d.id s h
    have hnodup1 : idsNodup
        ((InMemoryTodoRepository.update s d.id
          { status := some TodoStatus.REMINDER_DUE, updatedAt := some now } now).2) := by
      unfold idsNodup
      rw [show (InMemoryTodoRepository.update s d.id
          { status := some TodoStatus.REMINDER_DUE, updatedAt := some now } now).2 =
          (replaceFirst (fun t => applyUpdates t
            { status := some TodoStatus.REMINDER_DUE, updatedAt := some now } now)
            d.id s).2 from rfl,
        replaceFirst_ids _ _ _ hid]
      exact h
    obtain ⟨ih1, ih2⟩ := ih _ hnodup1
    constructor
    · simp [TodoService.processLoop, ih1]
    · have : (TodoService.processLoop s (d :: rest) now).2 =
          (TodoService.processLoop
            ((InMemoryTodoRepository.update s d.id
              { status := some TodoStatus.REMINDER_DUE, updatedAt := some now } now).2)
            rest now).2 := rfl
      rw [this, ih2]
      unfold InMemoryTodoRepository.update
      rw [hmap, List.map_map]
      refine List.map_congr_left ?_
      intro t _
      by_cases h1 : t.id = d.id
      · by_cases h2 : t.id ∈ rest.map (fun d => d.id) <;>
          simp [Function.comp, h1, h2, applyUpdates, mergeOpt]
      · by_cases h2 : t.id ∈ rest.map (fun d => d.id) <;>
          simp [Function.comp, h1, h2]

theorem mem_filter_ids_iff (s : List Todo) (p : Todo → Bool) (h : idsNodup s)
    (t : Todo) (ht : t ∈ s) :
    (t.id ∈ (s.filter p).map (fun d => d.id)) ↔ p t = true := by
  constructor
  · intro hm
    obtain ⟨d, hd, hid⟩ := List.mem_map.1 hm
    obtain ⟨hd1, hd2⟩ := List.mem_filter.1 hd
    have : d = t := eq_of_mem_of_id_eq h hd1 ht hid
    exact this ▸ hd2
  · intro hp
    exact List.mem_map_of_mem _ (List.mem_filter.2 ⟨ht, hp⟩)

theorem processReminders_spec (s : List Todo) (now : Nat) (h : idsNodup s) :
    TodoService.processReminders s now =
      ((s.filter (fun t => isDue t now)).length, markDue s now) := by
  obtain ⟨h1, h2⟩ := processLoop_spec now (s.filter (fun t => isDue t now)) s h
  have hfd : InMemoryTodoRepository.findDueReminders s now =
      s.filter (fun t => isDue t now) := rfl
  have : TodoService.processReminders s now =
      TodoService.processLoop s (s.filter (fun t => isDue t now)) now := by
    unfold TodoService.processReminders
    rw [hfd]
  rw [this]
  refine Prod.ext h1 ?_
  rw [h2]
  unfold markDue
  refine List.map_congr_left ?_
  intro t ht
  by_cases hp : isDue t now
  · rw [if_pos ((mem_filter_ids_iff s _ h t ht).2 hp)]
    simp [dueFlip, hp]
  · rw [if_neg (fun hm => hp ((mem_filter_ids_iff s _ h t ht).1 hm))]
    simp [dueFlip, hp]

theorem isDue_dueFlip (t : Todo) (now : Nat) :
    isDue (dueFlip now t) now = false := by
  unfold dueFlip
  by_cases hp : isDue t now
  · rw [if_pos hp]
    unfold isDue
    cases t.remindAt <;> simp
  · rw [if_neg hp]
    exact Bool.eq_false_iff.2 hp

theorem findDueReminders_markDue (s : List Todo) (now : Nat) :
    InMemoryTodoRepository.findDueReminders (markDue s now) now = [] := by
  unfold InMemoryTodoRepository.findDueReminders markDue
  rw [List.filter_eq_nil_iff]
  intro a ha
  obtain ⟨t, _, rfl⟩ := List.mem_map.1 ha
  simp [isDue_dueFlip]

/-! Status machine: allowed transitions and their preservation by the
service operations. -/

/-- Reflexive-transitive closure of the allowed status edges
PENDING to DONE, PENDING to REMINDER_DUE and REMINDER_DUE to DONE. -/
def allowedPath (a b : TodoStatus) : Prop :=
  a = b ∨
  (a = TodoStatus.PENDING ∧ (b = TodoStatus.DONE ∨ b = TodoStatus.REMINDER_DUE)) ∨
  (a = TodoStatus.REMINDER_DUE ∧ b = TodoStatus.DONE)

theorem allowedPath_refl (a : TodoStatus) : allowedPath a a := Or.inl rfl

theorem allowedPath_to_done (a : TodoStatus) : allowedPath a TodoStatus.DONE := by
  cases a <;> simp [allowedPath]

theorem allowedPath_trans {a b c : TodoStatus}
    (h1 : allowedPath a b) (h2 : allowedPath b c) : allowedPath a c := by
  cases a <;> cases b <;> cases c <;> simp_all [allowedPath]

theorem allowedPath_done {b : TodoStatus}
    (h : allowedPath TodoStatus.DONE b) : b = TodoStatus.DONE := by
  cases b <;> simp_all [allowedPath]

theorem lookup_append (s : List Todo) (id : String) (t nt : Todo)
    (ht : lookupById s id = some t) : lookupById (s ++ [nt]) id = some t := by
  unfold lookupById at *
  rw [List.find?_append, ht]
  rfl

theorem update_snd_lookup (s : List Todo) (tid : String) (u : TodoUpdates)
    (now : Nat) (id : String) (t : Todo) (hnd : idsNodup s)
    (ht : lookupById s id = some t) :
    lookupById ((InMemoryTodoRepository.update s tid u now).2) id =
      some (if t.id = tid then applyUpdates t u now else t) := by
  have hpres : ∀ t' : Todo,
      (decide ((if t'.id = tid then applyUpdates t' u now else t').id = id)) =
        decide (t'.id = id) := by
    intro t'
    by_cases h : t'.id = tid <;> simp [h, applyUpdates]
  unfold InMemoryTodoRepository.update
  rw [replaceFirst_snd_eq_map _ _ _ hnd]
  unfold lookupById at *
  rw [find?_map_of_pred _ _ _ hpres, ht, Option.map_some']

theorem delete_snd_lookup (s : List Todo) (tid : String) (now : Nat)
    (id : String) (t : Todo) (hnd : idsNodup s)
    (ht : lookupById s id = some t) :
    lookupById ((InMemoryTodoRepository.delete s tid now).2) id =
      some (if t.id = tid then { t with deletedAt := some now } else t) := by
  have hpres : ∀ t' : Todo,
      (decide ((if t'.id = tid then { t' with deletedAt := some now } else t').id = id)) =
        decide (t'.id = id) := by
    intro t'
    by_cases h : t'.id = tid <;> simp [h]
  unfold InMemoryTodoRepository.delete
  rw [replaceFirst_snd_eq_map _ _ _ hnd]
  unfold lookupById at *
  rw [find?_map_of_pred _ _ _ hpres, ht, Option.map_some']

theorem markDue_lookup (s : List Todo) (now : Nat) (id : String) (t : Todo)
    (ht : lookupById s id = some t) :
    lookupById (markDue s now) id = some (dueFlip now t) := by
  have hpres : ∀ t' : Todo,
      (decide ((dueFlip now t').id = id)) = decide (t'.id = id) := by
    intro t'
    unfold dueFlip
    by_cases h : isDue t' now <;> simp [h]
  unfold markDue
  unfold lookupById at *
  rw [find?_map_of_pred _ _ _ hpres, ht, Option.map_some']

theorem isDue_status {t : Todo} {now : Nat} (h : isDue t now = true) :
    t.status = TodoStatus.PENDING := by
  unfold isDue at h
  cases hr : t.remindAt with
  | none => rw [hr] at h; cases h
  | some r =>
    rw [hr] at h
    have := of_decide_eq_true h
    exact this.1

/-! Shape of the store after each service operation. -/

theorem update_ids (s : List Todo) (tid : String) (u : TodoUpdates) (now : Nat) :
    ((InMemoryTodoRepository.update s tid u now).2).map (fun t => t.id) =
      s.map (fun t => t.id) :=
  replaceFirst_ids _ _ _ (fun _ => rfl)

theorem delete_ids (s : List Todo) (tid : String) (now : Nat) :
    ((InMemoryTodoRepository.delete s tid now).2).map (fun t => t.id) =
      s.map (fun t => t.id) :=
  replaceFirst_ids _ _ _ (fun _ => rfl)

theorem markDue_ids (s : List Todo) (now : Nat) :
    (markDue s now).map (fun t => t.id) = s.map (fun t => t.id) := by
  unfold markDue
  rw [List.map_map]
  refine List.map_congr_left ?_
  intro t _
  unfold Function.comp dueFlip
  by_cases h : isDue t now <;> simp [h]

theorem createTodo_snd (users : List String) (s : List Todo)
    (uid title : String) (desc : Option String) (rem : Option Nat)
    (rand now : Nat) :
    (TodoService.createTodo users s uid title desc rem rand now).2 = s ∨
    (TodoService.createTodo users s uid title desc rem rand now).2 =
      s ++ [(InMemoryTodoRepository.create s
        { userId := uid, title := title, description := desc,
          status := TodoStatus.PENDING, remindAt := rem } rand now).1] := by
  unfold TodoService.createTodo
  by_cases h1 : jsTrim title = ""
  · left; simp [h1]
  · by_cases h2 : uid ∈ users
    · right; simp [h1, h2, InMemoryTodoRepository.create]
    · left; simp [h1, h2]

theorem updateTodo_snd (s : List Todo) (tid : String) (d : UpdateData)
    (now : Nat) :
    (TodoService.updateTodo s tid d now).2 = s ∨
    (TodoService.updateTodo s tid d now).2 =
      (InMemoryTodoRepository.update s tid
        { title := d.title, description := d.description,
          status := d.status, remindAt := d.remindAt } now).2 := by
  unfold TodoService.updateTodo
  cases hfb : InMemoryTodoRepository.findById s tid with
  | none => left; rfl
  | some t0 =>
    by_cases hti : d.title.any (fun tt => jsTrim tt = "") = true
    · left; simp [hti]
    · right
      rcases hupd : InMemoryTodoRepository.update s tid
        { title := d.title, description := d.description,
          status := d.status, remindAt := d.remindAt } now with ⟨r1, s1⟩
      cases r1 <;> simp [hti, hupd]

theorem completeTodo_snd (s : List Todo) (tid : String) (now : Nat) :
    (TodoService.completeTodo s tid now).2 = s ∨
    (TodoService.completeTodo s tid now).2 =
      (InMemoryTodoRepository.update s tid
        { status := some TodoStatus.DONE, updatedAt := some now } now).2 := by
  unfold TodoService.completeTodo
  cases hfb : InMemoryTodoRepository.findById s tid with
  | none => left; rfl
  | some t0 =>
    by_cases hdone : t0.status = TodoStatus.DONE
    · left; simp [hdone]
    · right
      rcases hupd : InMemoryTodoRepository.update s tid
        { status := some TodoStatus.DONE, updatedAt := some now } now with ⟨r1, s1⟩
      cases r1 <;> simp [hdone, hupd]

theorem deleteTodo_snd (s : List Todo) (tid : String) (now : Nat) :
    (TodoService.deleteTodo s tid now).2 = s ∨
    (TodoService.deleteTodo s tid now).2 =
      (InMemoryTodoRepository.delete s tid now).2 := by
  unfold TodoService.deleteTodo
  cases hfb : InMemoryTodoRepository.findById s tid with
  | none => left; rfl
  | some t0 => right; rfl

theorem repoShare_snd (s : List Todo) (tid target : String) (now : Nat) :
    (InMemoryTodoRepository.shareTodo s tid target now).2 = s ∨
    ∃ sw, (InMemoryTodoRepository.shareTodo s tid target now).2 =
      (InMemoryTodoRepository.update s tid { sharedWith := some sw } now).2 := by
  unfold InMemoryTodoRepository.shareTodo
  cases hfb : InMemoryTodoRepository.findById s tid with
  | none => left; rfl
  | some t0 =>
    by_cases hc : target ∈ t0.sharedWith
    · left; simp [hc]
    · right
      exact ⟨t0.sharedWith ++ [target], by simp [hc]⟩

theorem repoUnshare_snd (s : List Todo) (tid target : String) (now : Nat) :
    (InMemoryTodoRepository.unshareTodo s tid target now).2 = s ∨
    ∃ sw, (InMemoryTodoRepository.unshareTodo s tid target now).2 =
      (InMemoryTodoRepository.update s tid { sharedWith := some sw } now).2 := by
  unfold InMemoryTodoRepository.unshareTodo
  cases hfb : InMemoryTodoRepository.findById s tid with
  | none => left; rfl
  | some t0 =>
    by_cases hc : t0.sharedWith.isEmpty = true
    · left; simp [hc]
    · right
      exact ⟨t0.sharedWith.filter (fun id => id ≠ target), by simp [hc]⟩

theorem shareTodo_snd (users : List String) (s : List Todo)
    (tid target : String) (now : Nat) :
    (TodoService.shareTodo users s tid target now).2 = s ∨
    (TodoService.shareTodo users s tid target now).2 =
      (InMemoryTodoRepository.shareTodo s tid target now).2 := by
  unfold TodoService.shareTodo
  cases hfb : InMemoryTodoRepository.findById s tid with
  | none => left; rfl
  | some t0 =>
    by_cases hu : target ∈ users
    · by_cases howner : target = t0.userId
      · subst howner; left; simp [hu]
      · right
        rcases hsh : InMemoryTodoRepository.shareTodo s tid target now with ⟨r1, s1⟩
        cases r1 <;> simp [hu, howner, hsh]
    · left; simp [hu]

theorem unshareTodo_snd (s : List Todo) (tid target : String) (now : Nat) :
    (TodoService.unshareTodo s tid target now).2 = s ∨
    (TodoService.unshareTodo s tid target now).2 =
      (InMemoryTodoRepository.unshareTodo s tid target now).2 := by
  unfold TodoService.unshareTodo
  cases hfb : InMemoryTodoRepository.findById s tid with
  | none => left; rfl
  | some t0 =>
    right
    rcases hsh : InMemoryTodoRepository.unshareTodo s tid target now with ⟨r1, s1⟩
    cases r1 <;> simp [hsh]

theorem step_status (users : List String) (s : List Todo) (op : Op)
    (hnd : idsNodup s) (hsf : statusFree op = true)
    (id : String) (t : Todo) (ht : lookupById s id = some t) :
    ∃ t', lookupById (step users s op) id = some t' ∧
      allowedPath t.status t'.status := by
  cases op with
  | createTodo uid title desc rem rand now =>
    rcases createTodo_snd users s uid title desc rem rand now with h | h
    · refine ⟨t, ?_, allowedPath_refl _⟩
      simp only [step]
      rw [h]
      exact ht
    · refine ⟨t, ?_, allowedPath_refl _⟩
      simp only [step]
      rw [h]
      exact lookup_append s id t _ ht
  | updateTodo tid d now =>
    rcases updateTodo_snd s tid d now with h | h
    · refine ⟨t, ?_, allowedPath_refl _⟩
      simp only [step]
      rw [h]
      exact ht
    · have hst : d.status = none := by
        simpa [statusFree, Option.isNone_iff_eq_none] using hsf
      have hlk := update_snd_lookup s tid
        { title := d.title, description := d.description,
          status := d.status, remindAt := d.remindAt } now id t hnd ht
      refine ⟨if t.id = tid then applyUpdates t
        { title := d.title, description := d.description,
          status := d.status, remindAt := d.remindAt } now else t, ?_, ?_⟩
      · simp only [step]
        rw [h]
        exact hlk
      · by_cases hm : t.id = tid
        · rw [if_pos hm]
          have hstat : (applyUpdates t
              { title := d.title, description := d.description,
                status := d.status, remindAt := d.remindAt } now).status =
              Option.getD d.status t.status := rfl
          rw [hstat, hst]
          exact allowedPath_refl _
        · rw [if_neg hm]
          exact allowedPath_refl _
  | completeTodo tid now =>
    rcases completeTodo_snd s tid now with h | h
    · refine ⟨t, ?_, allowedPath_refl _⟩
      simp only [step]
      rw [h]
      exact ht
    · have hlk := update_snd_lookup s tid
        { status := some TodoStatus.DONE, updatedAt := some now } now id t hnd ht
      refine ⟨if t.id = tid then applyUpdates t
        { status := some TodoStatus.DONE, updatedAt := some now } now else t, ?_, ?_⟩
      · simp only [step]
        rw [h]
        exact hlk
      · by_cases hm : t.id = tid
        · rw [if_pos hm]
          exact allowedPath_to_done _
        · rw [if_neg hm]
          exact allowedPath_refl _
  | deleteTodo tid now =>
    rcases deleteTodo_snd s tid now with h | h
    · refine ⟨t, ?_, allowedPath_refl _⟩
      simp only [step]
      rw [h]
      exact ht
    · have hlk := delete_snd_lookup s tid now id t hnd ht
      refine ⟨if t.id = tid then { t with deletedAt := some now } else t, ?_, ?_⟩
      · simp only [step]
        rw [h]
        exact hlk
      · by_cases hm : t.id = tid
        · rw [if_pos hm]
          exact allowedPath_refl _
        · rw [if_neg hm]
          exact allowedPath_refl _
  | shareTodo tid target now =>
    rcases shareTodo_snd users s tid target now with h | h
    · refine ⟨t, ?_, allowedPath_refl _⟩
      simp only [step]
      rw [h]
      exact ht
    · rcases repoShare_snd s tid target now with h2 | ⟨sw, h2⟩
      · refine ⟨t, ?_, allowedPath_refl _⟩
        simp only [step]
        rw [h, h2]
        exact ht
      · have hlk := update_snd_lookup s tid
          { sharedWith := some sw } now id t hnd ht
        refine ⟨if t.id = tid then applyUpdates t
          { sharedWith := some sw } now else t, ?_, ?_⟩
        · simp only [step]
          rw [h, h2]
          exact hlk
        · by_cases hm : t.id = tid
          · rw [if_pos hm]
            exact allowedPath_refl _
          · rw [if_neg hm]
            exact allowedPath_refl _
  | unshareTodo tid target now =>
    rcases unshareTodo_snd s tid target now with h | h
    · refine ⟨t, ?_, allowedPath_refl _⟩
      simp only [step]
      rw [h]
      exact ht
    · rcases repoUnshare_snd s tid target now with h2 | ⟨sw, h2⟩
      · refine ⟨t, ?_, allowedPath_refl _⟩
        simp only [step]
        rw [h, h2]
        exact ht
      · have hlk := update_snd_lookup s tid
          { sharedWith := some sw } now id t hnd ht
        refine ⟨if t.id = tid then applyUpdates t
          { sharedWith := some sw } now else t, ?_, ?_⟩
        · simp only [step]
          rw [h, h2]
          exact hlk
        · by_cases hm : t.id = tid
          · rw [if_pos hm]
            exact allowedPath_refl _
          · rw [if_neg hm]
            exact allowedPath_refl _
  | processReminders now =>
    have hsnd : (TodoService.processReminders s now).2 = markDue s now := by
      rw [processReminders_spec s now hnd]
    refine ⟨dueFlip now t, ?_, ?_⟩
    · simp only [step]
      rw [hsnd]
      exact markDue_lookup s now id t ht
    · by_cases hdue : isDue t now = true
      · have h1 := isDue_status hdue
        have h2 : (dueFlip now t).status = TodoStatus.REMINDER_DUE := by
          simp [dueFlip, hdue]
        rw [h2]
        exact Or.inr (Or.inl ⟨h1, Or.inr rfl⟩)
      · have h2 : dueFlip now t = t := by
          simp [dueFlip, hdue]
        rw [h2]
        exact allowedPath_refl _

theorem step_idsNodup (users : List String) (s : List Todo) (op : Op)
    (hnd : idsNodup s) (hf : freshOp s op = true) :
    idsNodup (step users s op) := by
  cases op with
  | createTodo uid title desc rem rand now =>
    rcases createTodo_snd users s uid title desc rem rand now with h | h
    · simpa only [step, h] using hnd
    · simp only [step]
      rw [h]
      have hfresh : ∀ t ∈ s, t.id ≠ "todo-" ++ toString rand := by
        simpa [freshOp, List.all_eq_true] using hf
      unfold idsNodup at *
      rw [List.map_append, List.nodup_append]
      refine ⟨hnd, List.nodup_singleton _, ?_⟩
      intro a ha hb
      obtain ⟨t0, ht0, rfl⟩ := List.mem_map.1 ha
      exact hfresh t0 ht0 (by simpa using hb)
  | updateTodo tid d now =>
    unfold idsNodup at *
    rcases updateTodo_snd s tid d now with h | h
    · rw [step, h]; exact hnd
    · rw [step, h, update_ids]; exact hnd
  | completeTodo tid now =>
    unfold idsNodup at *
    rcases completeTodo_snd s tid now with h | h
    · rw [step, h]; exact hnd
    · rw [step, h, update_ids]; exact hnd
  | deleteTodo tid now =>
    unfold idsNodup at *
    rcases deleteTodo_snd s tid now with h | h
    · rw [step, h]; exact hnd
    · rw [step, h, delete_ids]; exact hnd
  | shareTodo tid target now =>
    unfold idsNodup at *
    rcases shareTodo_snd users s tid target now with h | h
    · rw [step, h]; exact hnd
    · rcases repoShare_snd s tid target now with h2 | ⟨sw, h2⟩
      · rw [step, h, h2]; exact hnd
      · rw [step, h, h2, update_ids]; exact hnd
  | unshareTodo tid target now =>
    unfold idsNodup at *
    rcases unshareTodo_snd s tid target now with h | h
    · rw [step, h]; exact hnd
    · rcases repoUnshare_snd s tid target now with h2 | ⟨sw, h2⟩
      · rw [step, h, h2]; exact hnd
      · rw [step, h, h2, update_ids]; exact hnd
  | processReminders now =>
    have hsnd : (TodoService.processReminders s now).2 = markDue s now := by
      rw [processReminders_spec s now hnd]
    unfold idsNodup at *
    rw [step, hsnd, markDue_ids]
    exact hnd

/-! Sharing invariant: no stored record lists its owner or a duplicate in
`sharedWith`. -/

/-- Invariant of claim C7: every stored record's `sharedWith` excludes the
owner and holds no duplicates. -/
def shareInv (s : List Todo) : Prop :=
  ∀ t ∈ s, t.userId ∉ t.sharedWith ∧ t.sharedWith.Nodup

theorem shareInv_update_of_sharedWith_none (s : List Todo) (tid : String)
    (u : TodoUpdates) (now : Nat) (hnd : idsNodup s) (hinv : shareInv s)
    (hsw : u.sharedWith = none) :
    shareInv ((InMemoryTodoRepository.update s tid u now).2) := by
  unfold InMemoryTodoRepository.update
  rw [replaceFirst_snd_eq_map _ _ _ hnd]
  intro t' hmem
  obtain ⟨t, htmem, rfl⟩ := List.mem_map.1 hmem
  by_cases hm : t.id = tid
  · rw [if_pos hm]
    have h1 : (applyUpdates t u now).sharedWith = t.sharedWith := by
      rw [show (applyUpdates t u now).sharedWith =
        u.sharedWith.getD t.sharedWith from rfl, hsw]
      rfl
    have h2 : (applyUpdates t u now).userId = t.userId := rfl
    rw [h1, h2]
    exact hinv t htmem
  · rw [if_neg hm]
    exact hinv t htmem

theorem shareInv_delete (s : List Todo) (tid : String) (now : Nat)
    (hnd : idsNodup s) (hinv : shareInv s) :
    shareInv ((InMemoryTodoRepository.delete s tid now).2) := by
  unfold InMemoryTodoRepository.delete
  rw [replaceFirst_snd_eq_map _ _ _ hnd]
  intro t' hmem
  obtain ⟨t, htmem, rfl⟩ := List.mem_map.1 hmem
  by_cases hm : t.id = tid
  · rw [if_pos hm]
    exact hinv t htmem
  · rw [if_neg hm]
    exact hinv t htmem

theorem shareInv_markDue (s : List Todo) (now : Nat) (hinv : shareInv s) :
    shareInv (markDue s now) := by
  intro t' hmem
  obtain ⟨t, htmem, rfl⟩ := List.mem_map.1 hmem
  unfold dueFlip
  by_cases hd : isDue t now <;> simp [hd] <;> exact hinv t htmem

theorem findById_mem_id {s : List Todo} {tid : String} {todo : Todo}
    (h : InMemoryTodoRepository.findById s tid = some todo) :
    todo ∈ s ∧ todo.id = tid ∧ todo.deletedAt = none := by
  refine ⟨List.mem_of_find?_eq_some h, ?_⟩
  have := List.find?_some h
  simp only [Bool.and_eq_true, decide_eq_true_eq, Option.isNone_iff_eq_none] at this
  exact this

theorem repoShare_inv (s : List Todo) (tid target : String) (now : Nat)
    (hnd : idsNodup s) (hinv : shareInv s)
    (howner : ∀ todo, InMemoryTodoRepository.findById s tid = some todo →
      target ≠ todo.userId) :
    shareInv ((InMemoryTodoRepository.shareTodo s tid target now).2) := by
  unfold InMemoryTodoRepository.shareTodo
  cases hfb : InMemoryTodoRepository.findById s tid with
  | none => exact hinv
  | some todo =>
    obtain ⟨hmem0, hid0, _⟩ := findById_mem_id hfb
    by_cases hc : target ∈ todo.sharedWith
    · simpa [hc] using hinv
    · dsimp only
      rw [if_neg (show ¬todo.sharedWith.contains target = true from by simpa using hc)]
      unfold InMemoryTodoRepository.update
      rw [replaceFirst_snd_eq_map _ _ _ hnd]
      intro t' hmem
      obtain ⟨t, htmem, rfl⟩ := List.mem_map.1 hmem
      by_cases hm : t.id = tid
      · rw [if_pos hm]
        have heq : t = todo :=
          eq_of_mem_of_id_eq hnd htmem hmem0 (hm.trans hid0.symm)
        subst heq
        have h1 : (applyUpdates t
            { sharedWith := some (t.sharedWith ++ [target]) } now).sharedWith =
            t.sharedWith ++ [target] := rfl
        have h2 : (applyUpdates t
            { sharedWith := some (t.sharedWith ++ [target]) } now).userId =
            t.userId := rfl
        rw [h1, h2]
        constructor
        · intro hmem2
          rcases List.mem_append.1 hmem2 with h3 | h3
          · exact (hinv t htmem).1 h3
          · exact howner t hfb (List.mem_singleton.1 h3).symm
        · rw [List.nodup_append]
          refine ⟨(hinv t htmem).2, List.nodup_singleton _, ?_⟩
          intro a ha hb
          rw [List.mem_singleton.1 hb] at ha
          exact hc ha
      · rw [if_neg hm]
        exact hinv t htmem

theorem repoUnshare_inv (s : List Todo) (tid target : String) (now : Nat)
    (hnd : idsNodup s) (hinv : shareInv s) :
    shareInv ((InMemoryTodoRepository.unshareTodo s tid target now).2) := by
  unfold InMemoryTodoRepository.unshareTodo
  cases hfb : InMemoryTodoRepository.findById s tid with
  | none => exact hinv
  | some todo =>
    by_cases he : todo.sharedWith.isEmpty
    · simpa [he] using hinv
    · have hrw : (if todo.sharedWith.isEmpty = true then (some todo, s)
          else InMemoryTodoRepository.update s tid
            { sharedWith := some (todo.sharedWith.filter (fun id => id ≠ target)) } now).2 =
          (InMemoryTodoRepository.update s tid
            { sharedWith := some (todo.sharedWith.filter (fun id => id ≠ target)) } now).2 := by
        rw [if_neg he]
      simp only [hrw]
      unfold InMemoryTodoRepository.update
      rw [replaceFirst_snd_eq_map _ _ _ hnd]
      intro t' hmem
      obtain ⟨t, htmem, rfl⟩ := List.mem_map.1 hmem
      by_cases hm : t.id = tid
      · rw [if_pos hm]
        obtain ⟨hmem0, hid0, _⟩ := findById_mem_id hfb
        have heq : t = todo :=
          eq_of_mem_of_id_eq hnd htmem hmem0 (hm.trans hid0.symm)
        subst heq
        have h1 : (applyUpdates t
            { sharedWith := some (t.sharedWith.filter (fun id => id ≠ target)) }
            now).sharedWith =
            t.sharedWith.filter (fun id => id ≠ target) := rfl
        have h2 : (applyUpdates t
            { sharedWith := some (t.sharedWith.filter (fun id => id ≠ target)) }
            now).userId = t.userId := rfl
        rw [h1, h2]
        constructor
        · intro hmem2
          exact (hinv t htmem).1 (List.mem_of_mem_filter hmem2)
        · exact List.Nodup.filter _ (hinv t htmem).2
      · rw [if_neg hm]
        exact hinv t htmem

theorem shareTodo_snd_strong (users : List String) (s : List Todo)
    (tid target : String) (now : Nat) :
    (TodoService.shareTodo users s tid target now).2 = s ∨
    ((TodoService.shareTodo users s tid target now).2 =
        (InMemoryTodoRepository.shareTodo s tid target now).2 ∧
      ∀ todo, InMemoryTodoRepository.findById s tid = some todo →
        target ≠ todo.userId) := by
  unfold TodoService.shareTodo
  cases hfb : InMemoryTodoRepository.findById s tid with
  | none => left; rfl
  | some t0 =>
    by_cases hu : target ∈ users
    · by_cases howner : target = t0.userId
      · subst howner; left; simp [hu]
      · right
        constructor
        · rcases hsh : InMemoryTodoRepository.shareTodo s tid target now with ⟨r1, s1⟩
          cases r1 <;> simp [hu, howner, hsh]
        · intro todo h
          have he : t0 = todo := Option.some.inj h
          rw [← he]
          exact howner
    · left; simp [hu]

theorem step_shareInv (users : List String) (s : List Todo) (op : Op)
    (hnd : idsNodup s) (hinv : shareInv s) :
    shareInv (step users s op) := by
  cases op with
  | createTodo uid title desc rem rand now =>
    rcases createTodo_snd users s uid title desc rem rand now with h | h <;>
      simp only [step] <;> rw [h]
    · exact hinv
    · intro t' hmem
      rcases List.mem_append.1 hmem with h1 | h1
      · exact hinv t' h1
      · rw [List.mem_singleton.1 h1]
        exact ⟨List.not_mem_nil _, List.nodup_nil⟩
  | updateTodo tid d now =>
    rcases updateTodo_snd s tid d now with h | h <;> simp only [step] <;> rw [h]
    · exact hinv
    · exact shareInv_update_of_sharedWith_none s tid _ now hnd hinv rfl
  | completeTodo tid now =>
    rcases completeTodo_snd s tid now with h | h <;> simp only [step] <;> rw [h]
    · exact hinv
    · exact shareInv_update_of_sharedWith_none s tid _ now hnd hinv rfl
  | deleteTodo tid now =>
    rcases deleteTodo_snd s tid now with h | h <;> simp only [step] <;> rw [h]
    · exact hinv
    · exact shareInv_delete s tid now hnd hinv
  | shareTodo tid target now =>
    rcases shareTodo_snd_strong users s tid target now with h | ⟨h, howner⟩ <;>
      simp only [step] <;> rw [h]
    · exact hinv
    · exact repoShare_inv s tid target now hnd hinv howner
  | unshareTodo tid target now =>
    rcases unshareTodo_snd s tid target now with h | h <;>
      simp only [step] <;> rw [h]
    · exact hinv
    · exact repoUnshare_inv s tid target now hnd hinv
  | processReminders now =>
    have hsnd : (TodoService.processReminders s now).2 = markDue s now := by
      rw [processReminders_spec s now hnd]
    simp only [step]
    rw [hsnd]
    exact shareInv_markDue s now hinv

/-- Concrete record builder for witnesses and counterexamples. -/
def mkTodo (id userId : String) (status : TodoStatus)
    (remindAt deletedAt : Option Nat) : Todo :=
  { id := id, userId := userId, title := "t", description := none,
    status := status, remindAt := remindAt, sharedWith := [],
    createdAt := 0, updatedAt := 0, deletedAt := deletedAt }

/-! Claim theorems. -/

/-- Claim C1, counterexample: `findDueReminders` has no `deletedAt`
condition, so a soft-deleted record that is PENDING with a due `remindAt`
is returned, contradicting the claim that every returned record is
non-deleted. -/
theorem c1_counterexample :
    InMemoryTodoRepository.findDueReminders
        [mkTodo "t1" "u1" TodoStatus.PENDING (some 1) (some 2)] 3 =
      [mkTodo "t1" "u1" TodoStatus.PENDING (some 1) (some 2)] ∧
    (mkTodo "t1" "u1" TodoStatus.PENDING (some 1) (some 2)).deletedAt = some 2 := by
  decide

/-- Claim C1 (amended): every record returned by `findDueReminders(now)`
has status PENDING and a set `remindAt` with `remindAt <= now` (hence no
DONE or REMINDER_DUE record is returned); the non-deleted part of the
claim does not hold, since the filter never inspects `deletedAt`. -/
theorem c1_amended_findDueReminders (s : List Todo) (now : Nat) (t : Todo)
    (ht : t ∈ InMemoryTodoRepository.findDueReminders s now) :
    t.status = TodoStatus.PENDING ∧ ∃ r, t.remindAt = some r ∧ r ≤ now := by
  obtain ⟨_, hd⟩ := List.mem_filter.1 ht
  unfold isDue at hd
  cases hr : t.remindAt with
  | none => rw [hr] at hd; cases hd
  | some r =>
    rw [hr] at hd
    have hprop := of_decide_eq_true hd
    exact ⟨hprop.1, r, rfl, hprop.2⟩

/-- Witness for the amended C1 theorem at a concrete store. -/
theorem c1_witness :
    mkTodo "t1" "u1" TodoStatus.PENDING (some 1) none ∈
      InMemoryTodoRepository.findDueReminders
        [mkTodo "t1" "u1" TodoStatus.PENDING (some 1) none] 3 ∧
    ((mkTodo "t1" "u1" TodoStatus.PENDING (some 1) none).status =
        TodoStatus.PENDING ∧
      ∃ r, (mkTodo "t1" "u1" TodoStatus.PENDING (some 1) none).remindAt =
        some r ∧ r ≤ 3) :=
  ⟨by decide,
    c1_amended_findDueReminders
      [mkTodo "t1" "u1" TodoStatus.PENDING (some 1) none] 3
      (mkTodo "t1" "u1" TodoStatus.PENDING (some 1) none) (by decide)⟩

/-- Claim C4: for an id matching no stored record, `update` and `delete`
both return the not-found marker (`null`) and leave the store unchanged;
neither fabricates a record. -/
theorem c4_not_found_no_phantom (s : List Todo) (id : String)
    (u : TodoUpdates) (now : Nat) (h : ∀ t ∈ s, t.id ≠ id) :
    InMemoryTodoRepository.update s id u now = (none, s) ∧
    InMemoryTodoRepository.delete s id now = (none, s) :=
  ⟨replaceFirst_not_found _ _ _ h, replaceFirst_not_found _ _ _ h⟩

/-- Witness for the C4 theorem at a concrete store. -/
theorem c4_witness :
    (∀ t ∈ [mkTodo "todo-1" "u1" TodoStatus.PENDING none none],
      t.id ≠ "missing") ∧
    InMemoryTodoRepository.update
        [mkTodo "todo-1" "u1" TodoStatus.PENDING none none] "missing"
        { title := some "x" } 7 =
      (none, [mkTodo "todo-1" "u1" TodoStatus.PENDING none none]) ∧
    InMemoryTodoRepository.delete
        [mkTodo "todo-1" "u1" TodoStatus.PENDING none none] "missing" 7 =
      (none, [mkTodo "todo-1" "u1" TodoStatus.PENDING none none]) :=
  ⟨by decide,
    c4_not_found_no_phantom _ "missing" { title := some "x" } 7 (by decide)⟩

/-- Claim C5, counterexample: `delete` looks the record up with no
`deletedAt` condition, so deleting the same id a second time does not
return not-found; it returns the tombstoned copy again with a refreshed
`deletedAt`. -/
theorem c5_counterexample :
    (InMemoryTodoRepository.delete
        [mkTodo "t1" "u1" TodoStatus.PENDING none none] "t1" 5).1 =
      some (mkTodo "t1" "u1" TodoStatus.PENDING none (some 5)) ∧
    (InMemoryTodoRepository.delete
        (InMemoryTodoRepository.delete
          [mkTodo "t1" "u1" TodoStatus.PENDING none none] "t1" 5).2 "t1" 7).1 =
      some (mkTodo "t1" "u1" TodoStatus.PENDING none (some 7)) := by
  decide

/-- Claim C5 (amended): `delete` soft-deletes: whenever some stored record
has the id (already tombstoned or not), it sets that record's `deletedAt`
to the current time, keeps it in the backing collection (the length is
unchanged), and returns the tombstoned copy; it returns not-found exactly
when no record at all has the id — not for an already-deleted record,
whose second delete returns the copy again. -/
theorem c5_amended_delete (s : List Todo) (id : String) (now : Nat) :
    (∀ t0, s.find? (fun t => t.id = id) = some t0 →
      (InMemoryTodoRepository.delete s id now).1 =
          some { t0 with deletedAt := some now } ∧
      { t0 with deletedAt := some now } ∈
          (InMemoryTodoRepository.delete s id now).2 ∧
      ((InMemoryTodoRepository.delete s id now).2).length = s.length) ∧
    ((∀ t ∈ s, t.id ≠ id) →
      InMemoryTodoRepository.delete s id now = (none, s)) := by
  constructor
  · intro t0 h
    refine ⟨?_, ?_, replaceFirst_length _ _ _⟩
    · rw [show InMemoryTodoRepository.delete s id now =
        replaceFirst (fun t => { t with deletedAt := some now }) id s from rfl,
        replaceFirst_fst, h]
      rfl
    · exact replaceFirst_mem _ _ _ _ h
  · intro h
    exact replaceFirst_not_found _ _ _ h

/-- Witness for the amended C5 theorem at a concrete store. -/
theorem c5_witness :
    ([mkTodo "t1" "u1" TodoStatus.PENDING none none].find?
        (fun t => t.id = "t1") =
      some (mkTodo "t1" "u1" TodoStatus.PENDING none none)) ∧
    ((InMemoryTodoRepository.delete
        [mkTodo "t1" "u1" TodoStatus.PENDING none none] "t1" 5).1 =
      some { mkTodo "t1" "u1" TodoStatus.PENDING none none with
        deletedAt := some 5 } ∧
    { mkTodo "t1" "u1" TodoStatus.PENDING none none with
        deletedAt := some 5 } ∈
      (InMemoryTodoRepository.delete
        [mkTodo "t1" "u1" TodoStatus.PENDING none none] "t1" 5).2 ∧
    ((InMemoryTodoRepository.delete
        [mkTodo "t1" "u1" TodoStatus.PENDING none none] "t1" 5).2).length =
      ([mkTodo "t1" "u1" TodoStatus.PENDING none none] : List Todo).length) :=
  ⟨by decide, (c5_amended_delete _ "t1" 5).1 _ (by decide)⟩

/-- Claim C6 (code bug, demonstrated): in the reference-semantics model,
`findById` returns the stored object itself (`return todo || null` without
a copy), so a caller that mutates the returned object changes what a
subsequent `findById` of the same id observes — mutation isolation does
not hold, although the repository's own notes claim all reads return
copies. -/
theorem c6_alias_leak :
    RefModel.findByIdRef
        { heap := [mkTodo "t1" "u1" TodoStatus.PENDING none none],
          todos := [0] } "t1" = some 0 ∧
    RefModel.readById
        { heap := [mkTodo "t1" "u1" TodoStatus.PENDING none none],
          todos := [0] } "t1" =
      some (mkTodo "t1" "u1" TodoStatus.PENDING none none) ∧
    RefModel.readById
        (RefModel.setTitle
          { heap := [mkTodo "t1" "u1" TodoStatus.PENDING none none],
            todos := [0] } 0 "changed") "t1" =
      some { mkTodo "t1" "u1" TodoStatus.PENDING none none with
        title := "changed" } := by
  decide

/-- Claim C9, counterexample: the id is `todo-` plus a random draw below
one million; when the draw collides with an existing record (always
possible, and guaranteed by pigeonhole once a million records exist), the
new id equals a stored id — fresh ids are not structurally guaranteed. -/
theorem c9_counterexample :
    (InMemoryTodoRepository.create
        [mkTodo "todo-0" "u1" TodoStatus.PENDING none none]
        { userId := "u2", title := "x", description := none,
          status := TodoStatus.PENDING, remindAt := none } 0 5).1.id =
      "todo-0" ∧
    (∃ t ∈ [mkTodo "todo-0" "u1" TodoStatus.PENDING none none],
      t.id = (InMemoryTodoRepository.create
        [mkTodo "todo-0" "u1" TodoStatus.PENDING none none]
        { userId := "u2", title := "x", description := none,
          status := TodoStatus.PENDING, remindAt := none } 0 5).1.id) := by
  decide

/-- Claim C9 (amended): `create` always succeeds and returns a record with
the supplied status (PENDING when called through the service), with
`createdAt = updatedAt = now`, an empty `sharedWith`, appended to the
store; its id is `todo-` followed by the random draw, which is unique only
with high probability, not structurally. -/
theorem c9_amended_create (s : List Todo) (d : CreateData) (rand now : Nat) :
    ((InMemoryTodoRepository.create s d rand now).1.id =
        "todo-" ++ toString rand ∧
      (InMemoryTodoRepository.create s d rand now).1.status = d.status ∧
      (InMemoryTodoRepository.create s d rand now).1.createdAt = now ∧
      (InMemoryTodoRepository.create s d rand now).1.updatedAt = now ∧
      (InMemoryTodoRepository.create s d rand now).1.sharedWith = [] ∧
      (InMemoryTodoRepository.create s d rand now).2 =
        s ++ [(InMemoryTodoRepository.create s d rand now).1]) ∧
    ∀ (users : List String) (uid title : String) (desc : Option String)
      (rem : Option Nat) (todo : Todo) (s' : List Todo),
      TodoService.createTodo users s uid title desc rem rand now =
        (Except.ok todo, s') →
      todo.status = TodoStatus.PENDING ∧ todo.createdAt = now ∧
        todo.updatedAt = now ∧ todo.sharedWith = [] ∧ s' = s ++ [todo] := by
  refine ⟨⟨rfl, rfl, rfl, rfl, rfl, rfl⟩, ?_⟩
  intro users uid title desc rem todo s' h
  unfold TodoService.createTodo at h
  by_cases h1 : jsTrim title = ""
  · simp [h1] at h
  · by_cases h2 : uid ∈ users
    · rw [if_neg h1,
        if_pos (show users.contains uid = true from by simpa using h2)] at h
      injection h with he1 he2
      injection he1 with he1
      subst he1
      exact ⟨rfl, rfl, rfl, rfl, he2.symm⟩
    · simp [h1, h2] at h

/-- Sample payload for the C9 witness call. -/
def c9CreateData : CreateData :=
  { userId := "u1", title := "a", description := none,
    status := TodoStatus.PENDING, remindAt := none }

/-- Sample record produced by the C9 witness call. -/
def c9SampleTodo : Todo :=
  { id := "todo-3", userId := "u1", title := "a", description := none,
    status := TodoStatus.PENDING, remindAt := none, sharedWith := [],
    createdAt := 9, updatedAt := 9, deletedAt := none }

/-- Witness for the amended C9 theorem at a concrete input. -/
theorem c9_witness :
    TodoService.createTodo ["u1"] [] "u1" "a" none none 3 9 =
      (Except.ok c9SampleTodo, [c9SampleTodo]) ∧
    c9SampleTodo.status = TodoStatus.PENDING ∧
    c9SampleTodo.createdAt = 9 ∧ c9SampleTodo.updatedAt = 9 ∧
    c9SampleTodo.sharedWith = [] ∧
    ([c9SampleTodo] : List Todo) = [] ++ [c9SampleTodo] :=
  ⟨by rfl,
    (c9_amended_create [] c9CreateData 3 9).2
      ["u1"] "u1" "a" none none c9SampleTodo [c9SampleTodo] (by rfl)⟩

theorem steps_invariants :
    ∀ {users : List String} {s : List Todo} {ops : List Op} {s' : List Todo},
      Steps users s ops s' → idsNodup s → shareInv s →
      idsNodup s' ∧ shareInv s' := by
  intro users s ops s' h
  induction h with
  | nil s0 => intro h1 h2; exact ⟨h1, h2⟩
  | cons s0 op ops s1 hf hsteps ih =>
    intro h1 h2
    exact ih (step_idsNodup users s0 op h1 hf) (step_shareInv users s0 op h1 h2)

/-- Claim C7, counterexample: with colliding random ids (ids are random
draws, so this chain of plain service calls is reachable), `findById`
resolves one record while `update` writes the first id-match, and the
owner of the tombstoned first record ends up inside its own `sharedWith`;
on that store, `shareTodo(t.id, owner-of-t)` succeeds instead of failing
with a ValidationError. -/
theorem c7_counterexample :
    ∃ t ∈ step ["u1", "u2"]
        (step ["u1", "u2"]
          (step ["u1", "u2"]
            (step ["u1", "u2"] [] (Op.createTodo "u1" "a" none none 0 0))
            (Op.createTodo "u2" "b" none none 0 1))
          (Op.deleteTodo "todo-0" 2))
        (Op.shareTodo "todo-0" "u1" 3),
      t.userId ∈ t.sharedWith := by
  decide

/-- Claim C7 (amended): provided every generated id is fresh (the `Steps`
relation; random draws make this only probable), after any sequence of
service operations from the empty store no stored record's `sharedWith`
contains its owner or a duplicate; moreover on any store the service
`shareTodo` rejects a self-share with a ValidationError whenever the
target user exists, and re-sharing an already-present sharee is a no-op
returning the current record. -/
theorem c7_amended_share (users : List String) (ops : List Op)
    (s' : List Todo) (h : Steps users [] ops s') :
    (∀ t ∈ s', t.userId ∉ t.sharedWith ∧ t.sharedWith.Nodup) ∧
    (∀ (id u : String) (now : Nat) (todo : Todo),
      InMemoryTodoRepository.findById s' id = some todo →
      u ∈ users → u = todo.userId →
      TodoService.shareTodo users s' id u now =
        (Except.error
          (ServiceError.validation "Cannot share a todo with yourself"), s')) ∧
    (∀ (id u : String) (now : Nat) (todo : Todo),
      InMemoryTodoRepository.findById s' id = some todo →
      u ∈ users → u ≠ todo.userId → u ∈ todo.sharedWith →
      TodoService.shareTodo users s' id u now = (Except.ok todo, s')) := by
  refine ⟨?_, ?_, ?_⟩
  · exact (steps_invariants h (by unfold idsNodup; simp)
      (by intro t ht; cases ht)).2
  · intro id u now todo hfb hu heq
    subst heq
    unfold TodoService.shareTodo
    rw [hfb]
    simp [hu]
  · intro id u now todo hfb hu hneq hmem
    unfold TodoService.shareTodo
    rw [hfb]
    have hrepo : InMemoryTodoRepository.shareTodo s' id u now =
        (some todo, s') := by
      unfold InMemoryTodoRepository.shareTodo
      rw [hfb]
      simp [hmem]
    simp [hu, hneq, hrepo]

/-- Stored record against which the C7 witness share call validates. -/
def c7SampleTodo : Todo :=
  { id := "todo-0", userId := "u1", title := "a", description := none,
    status := TodoStatus.PENDING, remindAt := none, sharedWith := ["u2"],
    createdAt := 0, updatedAt := 1, deletedAt := none }

/-- Witness for the amended C7 theorem: after creating a todo and sharing
it with another user, a self-share by the owner fails with the
ValidationError and the store is unchanged. -/
theorem c7_witness :
    TodoService.shareTodo ["u1", "u2"]
        (step ["u1", "u2"]
          (step ["u1", "u2"] [] (Op.createTodo "u1" "a" none none 0 0))
          (Op.shareTodo "todo-0" "u2" 1))
        "todo-0" "u1" 2 =
      (Except.error
        (ServiceError.validation "Cannot share a todo with yourself"),
        step ["u1", "u2"]
          (step ["u1", "u2"] [] (Op.createTodo "u1" "a" none none 0 0))
          (Op.shareTodo "todo-0" "u2" 1)) :=
  (c7_amended_share ["u1", "u2"]
      [Op.createTodo "u1" "a" none none 0 0, Op.shareTodo "todo-0" "u2" 1] _
      (Steps.cons _ _ _ _ (by decide)
        (Steps.cons _ _ _ _ (by decide) (Steps.nil _)))).2.1
    "todo-0" "u1" 2 c7SampleTodo (by decide) (by decide) (by decide)

/-- Claim C8: `getTodosByUser(u, page, limit)` returns the page-th window
of size `limit` of the non-deleted todos owned by or shared with `u`
(pagination after the filter), with `page` floored to at least 1 and
`limit` clamped to `[1, 100]`; in particular `page=0, limit=500` behaves
as `page=1, limit=100`, and `page=2, limit=10` returns items 11 through
20 of the filtered set. -/
theorem c8_pagination (s : List Todo) (u : String) (page limit : Int) :
    TodoService.getTodosByUser s u page limit =
      pageWindowSpec (ownerOrShareeTodos s u) page limit ∧
    TodoService.getTodosByUser s u 0 500 =
      TodoService.getTodosByUser s u 1 100 ∧
    TodoService.getTodosByUser s u 2 10 =
      ((ownerOrShareeTodos s u).drop 10).take 10 := by
  have hkey : ∀ p l : Int, TodoService.getTodosByUser s u p l =
      pageWindowSpec (ownerOrShareeTodos s u) p l := by
    intro p l
    have hp : (1:Int) ≤ max 1 p := le_max_left _ _
    have hl : (1:Int) ≤ min (max 1 p) 100 := le_min hp (by norm_num)
    have hl2 : (1:Int) ≤ min (max 1 l) 100 :=
      le_min (le_max_left _ _) (by norm_num)
    have hskip : (0:Int) ≤ (max 1 p - 1) * min (max 1 l) 100 :=
      mul_nonneg (by linarith) (by linarith)
    simp only [TodoService.getTodosByUser, InMemoryTodoRepository.findByUserId,
      pageWindowSpec, ownerOrShareeTodos, jsSlice]
    congr 1
    omega
  refine ⟨hkey page limit, ?_, ?_⟩
  · rw [hkey 0 500, hkey 1 100]
    unfold pageWindowSpec
    norm_num
  · rw [hkey 2 10]
    unfold pageWindowSpec
    norm_num
    rfl

theorem steps_allowedPath :
    ∀ {users : List String} {s : List Todo} {ops : List Op} {s' : List Todo},
      Steps users s ops s' → idsNodup s →
      (∀ op ∈ ops, statusFree op = true) →
      ∀ (id : String) (t t' : Todo), lookupById s id = some t →
        lookupById s' id = some t' → allowedPath t.status t'.status := by
  intro users s ops s' h
  induction h with
  | nil s0 =>
    intro _ _ id t t' ht ht'
    rw [ht] at ht'
    have heq := Option.some.inj ht'
    rw [← heq]
    exact allowedPath_refl _
  | cons s0 op ops s1 hf hsteps ih =>
    intro hnd hsf id t t' ht ht'
    obtain ⟨tm, hm, hp⟩ :=
      step_status users s0 op hnd (hsf op (List.mem_cons_self op ops)) id t ht
    exact allowedPath_trans hp
      (ih (step_idsNodup users s0 op hnd hf)
        (fun o ho => hsf o (List.mem_cons_of_mem op ho)) id tm t' hm ht')

/-- Claim C2, counterexample: the claim fails twice over, at reachable
states built by the step function itself. First, `updateTodo` passes any
supplied `status` straight through, so a DONE todo is set back to PENDING.
Second, with colliding random ids a sweep updates the first id-match, so a
DONE record is flipped to REMINDER_DUE. -/
theorem c2_counterexample :
    ((lookupById
        (step ["u1"] (step ["u1"] []
          (Op.createTodo "u1" "a" none none 0 0)) (Op.completeTodo "todo-0" 1))
        "todo-0").map Todo.status = some TodoStatus.DONE ∧
      (lookupById
        (step ["u1"] (step ["u1"] (step ["u1"] []
          (Op.createTodo "u1" "a" none none 0 0)) (Op.completeTodo "todo-0" 1))
          (Op.updateTodo "todo-0" { status := some TodoStatus.PENDING } 2))
        "todo-0").map Todo.status = some TodoStatus.PENDING) ∧
    ((lookupById
        (step ["u1"] (step ["u1"] (step ["u1"] []
          (Op.createTodo "u1" "a" none none 0 0)) (Op.completeTodo "todo-0" 1))
          (Op.createTodo "u1" "b" none (some 1) 0 2))
        "todo-0").map Todo.status = some TodoStatus.DONE ∧
      (lookupById
        (step ["u1"] (step ["u1"] (step ["u1"] (step ["u1"] []
          (Op.createTodo "u1" "a" none none 0 0)) (Op.completeTodo "todo-0" 1))
          (Op.createTodo "u1" "b" none (some 1) 0 2)) (Op.processReminders 5))
        "todo-0").map Todo.status = some TodoStatus.REMINDER_DUE) := by
  decide

/-- Claim C2 (amended): over any sequence of service operations in which
no `updateTodo` carries an explicit `status` field and every generated id
is fresh, starting from a store with pairwise-distinct ids, a record's
status only follows the reflexive-transitive closure of the edges PENDING
to DONE, PENDING to REMINDER_DUE and REMINDER_DUE to DONE; in particular a
DONE record stays DONE. (Unrestricted `updateTodo` can set any status, and
id collisions can flip a DONE record, as the counterexample shows.) -/
theorem c2_amended_status_transitions (users : List String) (s : List Todo)
    (ops : List Op) (s' : List Todo) (h : Steps users s ops s')
    (hnd : idsNodup s) (hsf : ∀ op ∈ ops, statusFree op = true)
    (id : String) (t t' : Todo) (ht : lookupById s id = some t)
    (ht' : lookupById s' id = some t') :
    allowedPath t.status t'.status ∧
      (t.status = TodoStatus.DONE → t'.status = TodoStatus.DONE) := by
  have hp := steps_allowedPath h hnd hsf id t t' ht ht'
  exact ⟨hp, fun hd => allowedPath_done (hd ▸ hp)⟩

/-- Witness for the amended C2 theorem: one `completeTodo` step on a
concrete store moves the record from REMINDER_DUE to DONE. -/
theorem c2_witness :
    allowedPath
        (mkTodo "t1" "u1" TodoStatus.REMINDER_DUE none none).status
        ({ mkTodo "t1" "u1" TodoStatus.REMINDER_DUE none none with
          status := TodoStatus.DONE, updatedAt := 1 } : Todo).status ∧
      ((mkTodo "t1" "u1" TodoStatus.REMINDER_DUE none none).status =
          TodoStatus.DONE →
        ({ mkTodo "t1" "u1" TodoStatus.REMINDER_DUE none none with
          status := TodoStatus.DONE, updatedAt := 1 } : Todo).status =
          TodoStatus.DONE) :=
  c2_amended_status_transitions ["u1"]
    [mkTodo "t1" "u1" TodoStatus.REMINDER_DUE none none]
    [Op.completeTodo "t1" 1] _
    (Steps.cons _ _ _ _ (by decide) (Steps.nil _))
    (by unfold idsNodup; decide) (by decide) "t1" _ _ (by decide) (by decide)

/-- Claim C3, counterexample: as stated the claim fails twice over. With
a LATER second time, a record whose `remindAt` lies between the two times
is found due by the second call, which then returns 1, not 0. And with
duplicate ids (reachable, since ids are random draws), the sweep updates
the first id-match only, so a second call at the SAME time still finds a
due PENDING record and returns 1. -/
theorem c3_counterexample :
    (TodoService.processReminders
        [mkTodo "t1" "u1" TodoStatus.PENDING (some 5) none] 3).1 = 0 ∧
    (TodoService.processReminders
        (TodoService.processReminders
          [mkTodo "t1" "u1" TodoStatus.PENDING (some 5) none] 3).2 5).1 = 1 ∧
    (TodoService.processReminders
        [mkTodo "x" "u1" TodoStatus.PENDING (some 1) none,
          mkTodo "x" "u2" TodoStatus.PENDING (some 1) none] 2).1 = 2 ∧
    (TodoService.processReminders
        (TodoService.processReminders
          [mkTodo "x" "u1" TodoStatus.PENDING (some 1) none,
            mkTodo "x" "u2" TodoStatus.PENDING (some 1) none] 2).2 2).1 = 1 := by
  decide

/-- Claim C3 (amended): for a store with pairwise-distinct ids, after one
`processReminders` call a second call at the SAME current time finds zero
due PENDING records, modifies no record, and returns 0. (With a strictly
later time, records becoming due in between are processed — correctly so —
and with colliding ids a record can stay PENDING and be re-found.) -/
theorem c3_amended_idempotent (s : List Todo) (now : Nat)
    (hnd : idsNodup s) :
    InMemoryTodoRepository.findDueReminders
        ((TodoService.processReminders s now).2) now = [] ∧
    TodoService.processReminders
        ((TodoService.processReminders s now).2) now =
      (0, (TodoService.processReminders s now).2) := by
  have hsnd : (TodoService.processReminders s now).2 = markDue s now := by
    rw [processReminders_spec s now hnd]
  have hempty : InMemoryTodoRepository.findDueReminders (markDue s now) now =
      [] := findDueReminders_markDue s now
  constructor
  · rw [hsnd]
    exact hempty
  · rw [hsnd]
    unfold TodoService.processReminders
    rw [hempty]
    rfl

/-- Witness for the amended C3 theorem at a concrete store. -/
theorem c3_witness :
    idsNodup [mkTodo "t1" "u1" TodoStatus.PENDING (some 1) none] ∧
    (InMemoryTodoRepository.findDueReminders
        ((TodoService.processReminders
          [mkTodo "t1" "u1" TodoStatus.PENDING (some 1) none] 3).2) 3 = [] ∧
      TodoService.processReminders
          ((TodoService.processReminders
            [mkTodo "t1" "u1" TodoStatus.PENDING (some 1) none] 3).2) 3 =
        (0, (TodoService.processReminders
          [mkTodo "t1" "u1" TodoStatus.PENDING (some 1) none] 3).2)) :=
  ⟨by unfold idsNodup; decide,
    c3_amended_idempotent
      [mkTodo "t1" "u1" TodoStatus.PENDING (some 1) none] 3
      (by unfold idsNodup; decide)⟩

/-- Claim C10: the store's `update` spreads `updatedAt: new Date()` after
the caller's fields, so the result is identical whether or not the caller
supplied an `updatedAt`, and the stored record's `updatedAt` is the store
clock — a caller such as `completeTodo` cannot backdate or pin it. -/
theorem c10_update_forces_updatedAt (s : List Todo) (id : String)
    (u : TodoUpdates) (now : Nat) :
    InMemoryTodoRepository.update s id u now =
      InMemoryTodoRepository.update s id { u with updatedAt := none } now ∧
    ∀ t, (InMemoryTodoRepository.update s id u now).1 = some t →
      t.updatedAt = now ∧ t ∈ (InMemoryTodoRepository.update s id u now).2 := by
  constructor
  · rfl
  · intro t h
    rw [show InMemoryTodoRepository.update s id u now =
      replaceFirst (fun t' => applyUpdates t' u now) id s from rfl,
      replaceFirst_fst] at h
    cases hf : s.find? (fun t' => t'.id = id) with
    | none => rw [hf] at h; cases h
    | some t0 =>
      rw [hf, Option.map_some'] at h
      have heq := Option.some.inj h
      constructor
      · rw [← heq]
        rfl
      · rw [← heq]
        exact replaceFirst_mem _ _ _ _ hf

/-- Witness for the C10 theorem at a concrete input: an update that tries
to pin `updatedAt := 99` still stores `updatedAt = 7`. -/
theorem c10_witness :
    (InMemoryTodoRepository.update
        [mkTodo "t1" "u1" TodoStatus.PENDING none none] "t1"
        { updatedAt := some 99 } 7).1 =
      some { mkTodo "t1" "u1" TodoStatus.PENDING none none with
        updatedAt := 7 } ∧
    ({ mkTodo "t1" "u1" TodoStatus.PENDING none none with
        updatedAt := 7 } : Todo).updatedAt = 7 ∧
    { mkTodo "t1" "u1" TodoStatus.PENDING none none with updatedAt := 7 } ∈
      (InMemoryTodoRepository.update
        [mkTodo "t1" "u1" TodoStatus.PENDING none none] "t1"
        { updatedAt := some 99 } 7).2 :=
  ⟨by decide,
    (c10_update_forces_updatedAt
      [mkTodo "t1" "u1" TodoStatus.PENDING none none] "t1"
      { updatedAt := some 99 } 7).2 _ (by decide)⟩
